import Mathlib

/-!
Shallow embedding of the core of `Subnet-Calculator.py` (functions
`get_ip_class` and `calculate_subnet_details`), including the parts of
Python's `ipaddress` library that the program relies on:
`ipaddress.ip_network(s, strict=False)` for IPv4 and IPv6, address
formatting, and netmask handling.  All parsing works structurally on
`List Char` so that every definition evaluates inside the kernel.
-/

set_option maxRecDepth 8192

namespace SubnetCalc

/-- Address family detected by `ipaddress.ip_network`: IPv4 or IPv6. -/
inductive Family where
  | v4
  | v6
deriving DecidableEq

/-- Bit width of an address family: 32 for IPv4, 128 for IPv6. -/
def famWidth : Family → Nat
  | .v4 => 32
  | .v6 => 128

/-- Result of `ipaddress.ip_network(s, strict=False)` before masking: the
family, the supplied (pre-mask) address value, and the CIDR length. -/
structure Parsed where
  fam : Family
  addr : Nat
  plen : Nat
deriving DecidableEq

/-- Splits a character list at every occurrence of `sep`, keeping empty
pieces, like Python `str.split(sep)` with a one-character separator. -/
def splitOnChar (sep : Char) : List Char → List (List Char)
  | [] => [[]]
  | x :: xs =>
    match splitOnChar sep xs with
    | [] => [[]]
    | y :: ys => if x = sep then [] :: y :: ys else (x :: y) :: ys

/-- Decimal value of a digit string (callers check the characters first). -/
def digitsToNat (cs : List Char) : Nat :=
  cs.foldl (fun a c => a * 10 + (c.toNat - 48)) 0

/-- Value of one hexadecimal digit character, if it is one. -/
def hexDigitVal (c : Char) : Option Nat :=
  if c.isDigit then some (c.toNat - 48)
  else if 'a' ≤ c ∧ c ≤ 'f' then some (c.toNat - 87)
  else if 'A' ≤ c ∧ c ≤ 'F' then some (c.toNat - 55)
  else none

/-- Python `ipaddress._parse_octet`: decimal digits only, at most three of
them, no leading zero except `"0"` itself, value at most 255. -/
def parseOctet (cs : List Char) : Option Nat :=
  if cs.isEmpty then none
  else if cs.all Char.isDigit then
    if cs.length > 3 then none
    else if cs.head? = some '0' ∧ cs.length > 1 then none
    else if digitsToNat cs > 255 then none
    else some (digitsToNat cs)
  else none

/-- Python `ipaddress` IPv4 address parsing: exactly four octets separated
by dots. -/
def parseIPv4 (cs : List Char) : Option Nat :=
  match splitOnChar '.' cs with
  | [a, b, c, d] =>
    match parseOctet a, parseOctet b, parseOctet c, parseOctet d with
    | some x, some y, some z, some w =>
        some (((x * 256 + y) * 256 + z) * 256 + w)
    | _, _, _, _ => none
  | _ => none

/-- Python `ipaddress._parse_hextet`: hex digits only, at most four. -/
def parseHextet (cs : List Char) : Option Nat :=
  if cs.length > 4 then none
  else
    match cs.mapM hexDigitVal with
    | none => none
    | some [] => none
    | some ds => some (ds.foldl (fun a d => a * 16 + d) 0)

/-- Lowercase hexadecimal rendering without leading zeros (Python `%x`). -/
def natToHex (n : Nat) : String :=
  String.mk (Nat.toDigits 16 n)

/-- Accumulates hextet groups around a `::` gap of `skipped` zero groups
(the two loops at the end of Python `_ip_int_from_string`). -/
def assembleHex (hi : List (List Char)) (skipped : Nat)
    (lo : List (List Char)) : Option Nat :=
  match hi.mapM parseHextet, lo.mapM parseHextet with
  | some hs, some ls =>
    let ipHi := hs.foldl (fun a v => a * 65536 + v) 0
    some (ls.foldl (fun a v => a * 65536 + v) (ipHi <<< (16 * skipped)))
  | _, _ => none

/-- Python `ipaddress` IPv6 `_ip_int_from_string`: colon groups, at most
one `::`, optional embedded dotted-quad tail, at least 3 and at most 9
colon-separated pieces. -/
def parseIPv6 (cs : List Char) : Option Nat :=
  let parts0 := splitOnChar ':' cs
  if parts0.length < 3 then none
  else
    let withTail : Option (List (List Char)) :=
      match parts0.getLast? with
      | none => none
      | some last =>
        if last.any (· = '.') then
          match parseIPv4 last with
          | none => none
          | some v4 =>
            some (parts0.dropLast ++
              [(natToHex ((v4 >>> 16) &&& 65535)).data,
               (natToHex (v4 &&& 65535)).data])
        else some parts0
    match withTail with
    | none => none
    | some parts =>
      if parts.length > 9 then none
      else
        let emptyIdxs := (List.range parts.length).filter
          (fun i => decide (0 < i) && decide (i + 1 < parts.length) &&
            decide (parts.get? i = some ([] : List Char)))
        match emptyIdxs with
        | [] =>
          if parts.length = 8 then
            if parts.head? = some ([] : List Char) ∨
                parts.getLast? = some ([] : List Char) then none
            else assembleHex parts 0 []
          else none
        | [i] =>
          let headEmpty := parts.head? = some ([] : List Char)
          let lastEmpty := parts.getLast? = some ([] : List Char)
          if headEmpty ∧ i ≠ 1 then none
          else if lastEmpty ∧ i ≠ parts.length - 2 then none
          else
            let hiCount := if headEmpty then 0 else i
            let loCount := if lastEmpty then 0 else parts.length - 1 - i
            if hiCount + loCount ≥ 8 then none
            else
              assembleHex (parts.take hiCount) (8 - (hiCount + loCount))
                (parts.drop (parts.length - loCount))
        | _ => none

/-- Python netmask integer for a CIDR length: `ALL_ONES ^ (ALL_ONES >> p)`
(`ipaddress._ip_int_from_prefix`). -/
def maskInt (w p : Nat) : Nat := (2 ^ w - 1) ^^^ ((2 ^ w - 1) >>> p)

/-- Python `ipaddress._count_righthand_zero_bits`, capped at `bits`. -/
def righthandZeroBits (n bits : Nat) : Nat :=
  match (List.range bits).find? (fun i => n.testBit i) with
  | some i => i
  | none => bits

/-- Python `_prefix_from_ip_int`: recover a CIDR length from a netmask
integer, rejecting masks that mix zeroes and ones. -/
def plenOfMaskInt (w ipInt : Nat) : Option Nat :=
  let tz := righthandZeroBits ipInt w
  let p := w - tz
  if ipInt >>> tz = 2 ^ p - 1 then some p else none

/-- Python `_prefix_from_prefix_string`: ASCII decimal digits only, value
bounded by the family bit width. -/
def plenOfDigits (w : Nat) (cs : List Char) : Option Nat :=
  if cs.isEmpty then none
  else if cs.all Char.isDigit then
    if digitsToNat cs ≤ w then some (digitsToNat cs) else none
  else none

/-- Python `_make_netmask` for the textual part after `/`: a plain CIDR
length, else a netmask or hostmask written as an address
(`_prefix_from_ip_string`). -/
def plenOfMaskArg (w : Nat) (parseAddr : List Char → Option Nat)
    (cs : List Char) : Option Nat :=
  match plenOfDigits w cs with
  | some p => some p
  | none =>
    match parseAddr cs with
    | none => none
    | some ip =>
      match plenOfMaskInt w ip with
      | some p => some p
      | none => plenOfMaskInt w (ip ^^^ (2 ^ w - 1))

/-- Python `_split_optional_netmask`: at most one `/`. -/
def splitSlash (cs : List Char) : Option (List Char × Option (List Char)) :=
  match splitOnChar '/' cs with
  | [a] => some (a, none)
  | [a, m] => some (a, some m)
  | _ => none

/-- Python `IPv4Network(s, strict=False)` up to the pre-mask pair
(address value, CIDR length); a missing `/part` defaults to 32. -/
def parseV4Net (cs : List Char) : Option (Nat × Nat) :=
  match splitSlash cs with
  | none => none
  | some (a, m) =>
    match parseIPv4 a with
    | none => none
    | some ip =>
      match m with
      | none => some (ip, 32)
      | some ms =>
        match plenOfMaskArg 32 parseIPv4 ms with
        | none => none
        | some p => some (ip, p)

/-- Python `IPv6Network(s, strict=False)` up to the pre-mask pair
(address value, CIDR length); a missing `/part` defaults to 128. -/
def parseV6Net (cs : List Char) : Option (Nat × Nat) :=
  match splitSlash cs with
  | none => none
  | some (a, m) =>
    match parseIPv6 a with
    | none => none
    | some ip =>
      match m with
      | none => some (ip, 128)
      | some ms =>
        match plenOfMaskArg 128 parseIPv6 ms with
        | none => none
        | some p => some (ip, p)

/-- Python `ipaddress.ip_network(s, strict=False)`: try IPv4, then IPv6.
Keeps the supplied (pre-mask) address; masking happens in the deriver. -/
def ipNetworkParsed (s : String) : Option Parsed :=
  match parseV4Net s.data with
  | some (a, p) => some ⟨.v4, a, p⟩
  | none =>
    match parseV6Net s.data with
    | some (a, p) => some ⟨.v6, a, p⟩
    | none => none

/-- Dotted-quad form of a 32-bit value, like Python `str(IPv4Address(n))`. -/
def ipv4ToString (n : Nat) : String :=
  toString ((n >>> 24) % 256) ++ "." ++ toString ((n >>> 16) % 256) ++ "." ++
    toString ((n >>> 8) % 256) ++ "." ++ toString (n % 256)

/-- The eight 16-bit groups of an IPv6 value, most significant first, as
bare lowercase hex strings (the hextet list in `_string_from_ip_int`). -/
def hextetStrings (ip : Nat) : List String :=
  (List.range 8).map (fun i => natToHex ((ip >>> (16 * (7 - i))) &&& 65535))

/-- Scan for the leftmost longest run of "0" hextets, exactly as the loop
in Python `_compress_hextets` (strict improvement keeps earlier runs).
Arguments: remaining groups, current index, current run start, current run
length, best run start, best run length. -/
def zeroRunAux : List String → Nat → Option Nat → Nat → Option Nat → Nat →
    Option Nat × Nat
  | [], _, _, _, bs, bl => (bs, bl)
  | h :: t, i, cs, cl, bs, bl =>
    if h = "0" then
      let st := cs.getD i
      let cl' := cl + 1
      if cl' > bl then zeroRunAux t (i + 1) (some st) cl' (some st) cl'
      else zeroRunAux t (i + 1) (some st) cl' bs bl
    else zeroRunAux t (i + 1) none 0 bs bl

/-- Python `_compress_hextets`: replace the best run of zero groups (when
longer than one group) with the empty piece that renders as `::`. -/
def compressHextets (hts : List String) : List String :=
  match zeroRunAux hts 0 none 0 none 0 with
  | (some s, bl) =>
    if bl > 1 then
      let e := s + bl
      let hts2 := if e = hts.length then hts ++ [""] else hts
      let hts3 := hts2.take s ++ [""] ++ hts2.drop e
      if s = 0 then "" :: hts3 else hts3
    else hts
  | (none, _) => hts

/-- Joins pieces with `:` (Python `':'.join`). -/
def joinColon : List String → String
  | [] => ""
  | [x] => x
  | x :: xs => x ++ ":" ++ joinColon xs

/-- Compressed textual form of an IPv6 value, like Python
`str(IPv6Address(ip))`. -/
def ipv6ToString (ip : Nat) : String :=
  joinColon (compressHextets (hextetStrings ip))

/-- ASCII model of the `str.strip()` Python `int()` applies around its
argument: drop whitespace at both ends. -/
def stripWs (cs : List Char) : List Char :=
  ((cs.dropWhile Char.isWhitespace).reverse.dropWhile Char.isWhitespace).reverse

/-- Underscore-grouped decimal digits as accepted by Python `int()`:
nonempty, only digits and single interior underscores. -/
def groupedDigits (cs : List Char) : Bool :=
  !cs.isEmpty &&
  cs.all (fun c => c.isDigit || c == '_') &&
  cs.head? != some '_' &&
  cs.getLast? != some '_' &&
  !(cs.zip cs.tail).any (fun p => p.1 == '_' && p.2 == '_')

/-- Numeric value of a grouped digit string, underscores ignored. -/
def digitsValue (cs : List Char) : Nat :=
  digitsToNat (cs.filter Char.isDigit)

/-- Model of Python `int(str)` on ASCII input: optional single sign, then
grouped digits; surrounding whitespace ignored; `none` when `int()` would
raise `ValueError`. -/
def pyIntOfChars (cs : List Char) : Option Int :=
  if cs.head? = some '-' then
    if groupedDigits cs.tail then some (-(digitsValue cs.tail : Int)) else none
  else if cs.head? = some '+' then
    if groupedDigits cs.tail then some ((digitsValue cs.tail : Int)) else none
  else if groupedDigits cs then some ((digitsValue cs : Int)) else none

/-- Python `int(s)` on a string, `none` for `ValueError`. -/
def pythonInt (s : String) : Option Int :=
  pyIntOfChars (stripWs s.data)

/-- Text before the first `.` of a string (Python `s.split('.')[0]`). -/
def firstDotField (s : String) : String :=
  String.mk ((splitOnChar '.' s.data).headD [])

/-- The if/elif chain of `get_ip_class` over the parsed first octet
(Subnet-Calculator.py lines 15-26). -/
def classOfOctet (first_octet : Int) : String :=
  if 1 ≤ first_octet ∧ first_octet ≤ 126 then "Class A"
  else if 128 ≤ first_octet ∧ first_octet ≤ 191 then "Class B"
  else if 192 ≤ first_octet ∧ first_octet ≤ 223 then "Class C"
  else if 224 ≤ first_octet ∧ first_octet ≤ 239 then "Class D (Multicast)"
  else if 240 ≤ first_octet ∧ first_octet ≤ 255 then "Class E (Reserved)"
  else "Special/Reserved"

/-- Embedding of `get_ip_class` (Subnet-Calculator.py lines 10-29):
historical IPv4 class from the first octet, `"N/A"` when the bare
`except:` catches the failed `int()` conversion. -/
def get_ip_class (ip_address_str : String) : String :=
  match pythonInt (firstDotField ip_address_str) with
  | none => "N/A"
  | some first_octet => classOfOctet first_octet

/-- Value column of the details mapping: the Python code stores either a
string or an integer. -/
inductive Val where
  | s (v : String)
  | n (v : Nat)
deriving DecidableEq

/-- Error text produced at lines 126-128: `f"Invalid input: {e}"` with the
combined `ip_network` complaint. -/
def errMsg (s : String) : String :=
  "Invalid input: '" ++ s ++ "' does not appear to be an IPv4 or IPv6 network"

/-- Broadcast address string of the IPv4 branch (lines 69-79): `/31` uses
`network + 1`, `/32` the network itself, otherwise
`network.broadcast_address = network OR hostmask`. -/
def v4Broadcast (net plen : Nat) : String :=
  if plen = 31 then ipv4ToString (net + 1)
  else if plen = 32 then ipv4ToString net
  else ipv4ToString (net ||| ((2 ^ 32 - 1) >>> plen))

/-- Usable host range string of the IPv4 branch (lines 69-85); the
`StopIteration` guard fires exactly when `hosts()` is empty, that is when
`range(network+1, broadcast)` is empty. -/
def v4HostRange (net plen : Nat) : String :=
  if plen = 31 then
    ipv4ToString net ++ " - " ++ ipv4ToString (net + 1) ++ " (RFC 3021 P2P)"
  else if plen = 32 then ipv4ToString net
  else
    let bc := net ||| ((2 ^ 32 - 1) >>> plen)
    if net + 1 < bc then ipv4ToString (net + 1) ++ " - " ++ ipv4ToString (bc - 1)
    else "None"

/-- Usable host count display of the IPv4 branch (lines 92-98). -/
def v4UsableCount (plen totalHosts : Nat) : Val :=
  if plen = 31 then .s "2 (RFC 3021 P2P)"
  else if plen = 32 then .s "1 (Single Address)"
  else .n (totalHosts - 2)

/-- IPv4 branch of `calculate_subnet_details` (lines 47-101).
`num_addresses` is `broadcast - network + 1` in Python `ipaddress`. -/
def v4Details (ipWithCidr : String) (addr plen : Nat) : List (String × Val) :=
  let net := addr &&& maskInt 32 plen
  let netStr := ipv4ToString net
  let totalHosts := (net ||| ((2 ^ 32 - 1) >>> plen)) - net + 1
  let hostBits := 32 - plen
  [("Input IP/CIDR", .s ipWithCidr),
   ("IP Version", .s "IPv4"),
   ("Network ID", .s netStr),
   ("Historical Class", .s (get_ip_class netStr)),
   ("CIDR Prefix", .s ("/" ++ toString plen)),
   ("Subnet Mask", .s (ipv4ToString (maskInt 32 plen))),
   ("Host Bits (h)", .n hostBits),
   ("Subnet Bits (s)", .n (if plen > 24 then plen % 8 else plen)),
   ("Total IP Addresses", .n totalHosts),
   ("Usable Host Count", v4UsableCount plen totalHosts),
   ("Broadcast Address", .s (v4Broadcast net plen)),
   ("Usable Host Range", .s (v4HostRange net plen))]

/-- IPv6 branch of `calculate_subnet_details` (lines 47-122). -/
def v6Details (ipWithCidr : String) (addr plen : Nat) : List (String × Val) :=
  let net := addr &&& maskInt 128 plen
  let hostBits := 128 - plen
  [("Input IP/CIDR", .s ipWithCidr),
   ("IP Version", .s "IPv6"),
   ("Network ID", .s (ipv6ToString net)),
   ("CIDR Prefix", .s ("/" ++ toString plen)),
   ("Subnet Mask Concept", .s "Not Applicable (N/A)"),
   ("Host Bits", .n hostBits),
   ("Total IP Addresses",
     .s (if 64 ≤ hostBits then "2^" ++ toString hostBits ++ " (Standard /64 Subnet)"
         else "2^" ++ toString hostBits)),
   ("Usable Host Count",
     .s (if 64 ≤ hostBits then "Effectively infinite"
         else "2^" ++ toString hostBits)),
   ("Broadcast Address Concept", .s "Not Applicable (Uses Multicast)"),
   ("Host Range Concept", .s "The entire address space after the prefix.")]

/-- Embedding of `calculate_subnet_details` (lines 33-128): ordered details
on success, the `{"Error": ...}` dictionary modelled as `Except.error`. -/
def calculate (ip_with_cidr : String) : Except String (List (String × Val)) :=
  match ipNetworkParsed ip_with_cidr with
  | none => .error (errMsg ip_with_cidr)
  | some pr =>
    match pr.fam with
    | .v4 => .ok (v4Details ip_with_cidr pr.addr pr.plen)
    | .v6 => .ok (v6Details ip_with_cidr pr.addr pr.plen)

/-- Value of a named field on a successful result. -/
def fieldOf (r : Except String (List (String × Val))) (k : String) : Option Val :=
  match r with
  | .ok l => l.lookup k
  | .error _ => none

/-- Ordered field names of a successful result, empty on error. -/
def fieldKeys (r : Except String (List (String × Val))) : List String :=
  match r with
  | .ok l => l.map Prod.fst
  | .error _ => []

/-- Whether a calculation succeeded. -/
def resultOk (r : Except String (List (String × Val))) : Bool :=
  match r with
  | .ok _ => true
  | .error _ => false

/-- Field-name list asserted by the specification for IPv4 results (the
section 4.2 table together with the common fields of section 6), written
from the spec's words so it can be compared with the embedding's keys. -/
def specFieldNamesV4 : List String :=
  ["Input (as supplied)", "IP Version", "Network ID", "Historical Class",
   "CIDR Prefix", "Subnet Mask", "Host Bits", "Subnet Bits",
   "Total IP Addresses", "Usable Host Count", "Broadcast Address",
   "Usable Host Range"]

/-- Field-name list asserted by the specification for IPv6 results: the
common fields, then the section 4.2 IPv6 table rows in order (Host Bits,
Total IP Addresses, Usable Host Count, then the three Concept fields
listed in the table's last row), written from the spec's words for
comparison with the embedding's actual keys. -/
def specFieldNamesV6 : List String :=
  ["Input (as supplied)", "IP Version", "Network ID", "CIDR Prefix",
   "Host Bits", "Total IP Addresses", "Usable Host Count",
   "Subnet Mask Concept", "Broadcast Address Concept",
   "Host Range Concept"]

/-! Helper lemmas shared by several claims. -/

theorem calc_v4 {s : String} {a p : Nat}
    (h : ipNetworkParsed s = some ⟨Family.v4, a, p⟩) :
    calculate s = .ok (v4Details s a p) := by
  unfold calculate
  rw [h]

theorem calc_v6 {s : String} {a p : Nat}
    (h : ipNetworkParsed s = some ⟨Family.v6, a, p⟩) :
    calculate s = .ok (v6Details s a p) := by
  unfold calculate
  rw [h]

theorem maskInt_low_bits {w p i : Nat} (hi : i < w - p) :
    (maskInt w p).testBit i = false := by
  unfold maskInt
  rw [Nat.testBit_xor, Nat.testBit_shiftRight, Nat.testBit_two_pow_sub_one,
      Nat.testBit_two_pow_sub_one]
  have h1 : i < w := by omega
  have h2 : p + i < w := by omega
  simp [h1, h2]

theorem and_maskInt_mod (a w p : Nat) :
    (a &&& maskInt w p) % 2 ^ (w - p) = 0 := by
  apply Nat.eq_of_testBit_eq
  intro i
  rw [Nat.zero_testBit, Nat.testBit_mod_two_pow]
  by_cases hi : i < w - p
  · rw [Nat.testBit_and, maskInt_low_bits hi]
    simp
  · simp [hi]

theorem parseV4Net_noslash (cs : List Char) (hs : splitOnChar '/' cs = [cs]) :
    parseV4Net cs = (parseIPv4 cs).map (fun ip => (ip, 32)) := by
  unfold parseV4Net splitSlash
  rw [hs]
  show (match parseIPv4 cs with
    | none => none
    | some ip => some (ip, 32)) = (parseIPv4 cs).map (fun ip => (ip, 32))
  rcases parseIPv4 cs with _ | ip <;> rfl

theorem parseV6Net_noslash (cs : List Char) (hs : splitOnChar '/' cs = [cs]) :
    parseV6Net cs = (parseIPv6 cs).map (fun ip => (ip, 128)) := by
  unfold parseV6Net splitSlash
  rw [hs]
  show (match parseIPv6 cs with
    | none => none
    | some ip => some (ip, 128)) = (parseIPv6 cs).map (fun ip => (ip, 128))
  rcases parseIPv6 cs with _ | ip <;> rfl

/-! Claim C1: historical class octet source. -/

/-- C1 counterexample: for input "200.0.0.1/1" the code reports the class
of the masked network address 128.0.0.0 ("Class B"), not the class of the
original first octet 200 ("Class C"), so the claim as stated is false. -/
theorem C1_counterexample :
    fieldOf (calculate "200.0.0.1/1") "Historical Class" =
      some (.s "Class B") ∧
    get_ip_class "200.0.0.1" = "Class C" ∧
    (Val.s "Class B") ≠ (Val.s "Class C") :=
  ⟨rfl, rfl, by decide⟩

/-- C1 (amended): for every valid IPv4 input, the Historical Class field is
`get_ip_class` applied to the string of the MASKED network address
`addr AND mask(plen,32)` (hence determined by that address's first octet),
not to the original pre-mask input address. -/
theorem C1_class_from_masked_network (s : String) (a p : Nat)
    (h : ipNetworkParsed s = some ⟨Family.v4, a, p⟩) :
    fieldOf (calculate s) "Historical Class" =
      some (.s (get_ip_class (ipv4ToString (a &&& maskInt 32 p)))) := by
  rw [calc_v4 h]
  rfl

/-- C1 witness: the amended theorem applied at "10.0.0.1/24". -/
theorem C1_witness :
    fieldOf (calculate "10.0.0.1/24") "Historical Class" =
      some (.s "Class A") :=
  C1_class_from_masked_network "10.0.0.1/24" 167772161 24 rfl

/-! Claim C2: missing '/' separator. -/

/-- C2 counterexample: "10.0.0.1" has no '/' yet the calculation succeeds,
defaulting the CIDR length to the host value 32, so the claim that a
missing separator fails with InvalidInputError is false. -/
theorem C2_counterexample :
    resultOk (calculate "10.0.0.1") = true ∧
    fieldOf (calculate "10.0.0.1") "CIDR Prefix" = some (.s "/32") :=
  ⟨rfl, rfl⟩

/-- C2 (amended): an input without a '/' separator is not rejected; the
CIDR length defaults to the host value of the detected family (32 for
IPv4, 128 for IPv6). -/
theorem C2_missing_slash_defaults (s : String) (fam : Family) (a p : Nat)
    (h : ipNetworkParsed s = some ⟨fam, a, p⟩)
    (hs : splitOnChar '/' s.data = [s.data]) :
    p = famWidth fam := by
  unfold ipNetworkParsed at h
  rw [parseV4Net_noslash s.data hs, parseV6Net_noslash s.data hs] at h
  rcases h4 : parseIPv4 s.data with _ | ip <;> rw [h4] at h
  · rcases h6 : parseIPv6 s.data with _ | ip6 <;> rw [h6] at h
    · exact absurd h (by simp)
    · have h' : some (Parsed.mk Family.v6 ip6 128) = some ⟨fam, a, p⟩ := h
      injection h' with h'
      cases h'
      rfl
  · have h' : some (Parsed.mk Family.v4 ip 32) = some ⟨fam, a, p⟩ := h
    injection h' with h'
    cases h'
    rfl

/-- C2 witness: the amended theorem applied at "10.0.0.1". -/
theorem C2_witness : (32 : Nat) = famWidth Family.v4 :=
  C2_missing_slash_defaults "10.0.0.1" Family.v4 167772161 32 rfl rfl

/-! Claim C5: /31 point-to-point handling. -/

/-- C5: for every valid IPv4 input with CIDR length 31, the Usable Host
Count is "2 (RFC 3021 P2P)", the Broadcast Address is the network address
plus one, and the Usable Host Range is "network - network+1 (RFC 3021
P2P)". -/
theorem C5_p31_rfc3021 (s : String) (a : Nat)
    (h : ipNetworkParsed s = some ⟨Family.v4, a, 31⟩) :
    fieldOf (calculate s) "Usable Host Count" =
      some (.s "2 (RFC 3021 P2P)") ∧
    fieldOf (calculate s) "Broadcast Address" =
      some (.s (ipv4ToString ((a &&& maskInt 32 31) + 1))) ∧
    fieldOf (calculate s) "Usable Host Range" =
      some (.s (ipv4ToString (a &&& maskInt 32 31) ++ " - " ++
        ipv4ToString ((a &&& maskInt 32 31) + 1) ++ " (RFC 3021 P2P)")) := by
  rw [calc_v4 h]
  exact ⟨rfl, rfl, rfl⟩

/-- C5 witness: the theorem applied at "10.0.0.0/31", giving the concrete
values the claim lists. -/
theorem C5_witness :
    fieldOf (calculate "10.0.0.0/31") "Usable Host Count" =
      some (.s "2 (RFC 3021 P2P)") ∧
    fieldOf (calculate "10.0.0.0/31") "Broadcast Address" =
      some (.s "10.0.0.1") ∧
    fieldOf (calculate "10.0.0.0/31") "Usable Host Range" =
      some (.s "10.0.0.0 - 10.0.0.1 (RFC 3021 P2P)") := by
  have h := C5_p31_rfc3021 "10.0.0.0/31" 167772160 rfl
  exact ⟨h.1, h.2.1, h.2.2⟩

/-! Claim C6: /32 single-address handling. -/

/-- C6: for every valid IPv4 input with CIDR length 32, the Usable Host
Count is "1 (Single Address)", the Broadcast Address equals the network
address itself, and the Usable Host Range is that single address. -/
theorem C6_p32_single (s : String) (a : Nat)
    (h : ipNetworkParsed s = some ⟨Family.v4, a, 32⟩) :
    fieldOf (calculate s) "Usable Host Count" =
      some (.s "1 (Single Address)") ∧
    fieldOf (calculate s) "Broadcast Address" =
      some (.s (ipv4ToString (a &&& maskInt 32 32))) ∧
    fieldOf (calculate s) "Usable Host Range" =
      some (.s (ipv4ToString (a &&& maskInt 32 32))) := by
  rw [calc_v4 h]
  exact ⟨rfl, rfl, rfl⟩

/-- C6 witness: the theorem applied at "10.0.0.5/32", giving the concrete
values the claim lists. -/
theorem C6_witness :
    fieldOf (calculate "10.0.0.5/32") "Usable Host Count" =
      some (.s "1 (Single Address)") ∧
    fieldOf (calculate "10.0.0.5/32") "Broadcast Address" =
      some (.s "10.0.0.5") ∧
    fieldOf (calculate "10.0.0.5/32") "Usable Host Range" =
      some (.s "10.0.0.5") := by
  have h := C6_p32_single "10.0.0.5/32" 167772165 rfl
  exact ⟨h.1, h.2.1, h.2.2⟩

/-! Claim C7: non-strict masking. -/

/-- C7: every input the parser accepts as IPv4 is calculated (never
rejected for non-zero host bits); the derived network address is the
supplied address AND the netmask, and all bits beyond the CIDR length are
zero (its value is divisible by 2^(32-plen)). -/
theorem C7_nonstrict_masking (s : String) (a p : Nat)
    (h : ipNetworkParsed s = some ⟨Family.v4, a, p⟩) :
    resultOk (calculate s) = true ∧
    fieldOf (calculate s) "Network ID" =
      some (.s (ipv4ToString (a &&& maskInt 32 p))) ∧
    (a &&& maskInt 32 p) % 2 ^ (32 - p) = 0 := by
  rw [calc_v4 h]
  exact ⟨rfl, rfl, and_maskInt_mod a 32 p⟩

/-- C7 witness: the theorem applied at "192.168.50.1/24", whose host bits
are non-zero yet which is accepted and masked to 192.168.50.0. -/
theorem C7_witness :
    resultOk (calculate "192.168.50.1/24") = true ∧
    fieldOf (calculate "192.168.50.1/24") "Network ID" =
      some (.s "192.168.50.0") ∧
    (3232248321 &&& maskInt 32 24) % 2 ^ 8 = 0 := by
  have h := C7_nonstrict_masking "192.168.50.1/24" 3232248321 24 rfl
  exact ⟨h.1, h.2.1, h.2.2⟩

/-! Claim C3: IPv6 count fields. -/

/-- C3 counterexample: for "2001:db8::1/64" the Total IP Addresses field
is "2^64 (Standard /64 Subnet)", not the bare "2^64" the claim requires. -/
theorem C3_counterexample :
    fieldOf (calculate "2001:db8::1/64") "Total IP Addresses" =
      some (.s "2^64 (Standard /64 Subnet)") ∧
    ("2^64 (Standard /64 Subnet)" : String) ≠ "2^64" :=
  ⟨rfl, by decide⟩

/-- C3 (amended): for every valid IPv6 input with host_bits = 128 - plen,
the Total IP Addresses field is "2^<host_bits> (Standard /64 Subnet)" when
host_bits >= 64 and "2^<host_bits>" otherwise, and the Usable Host Count
field is "Effectively infinite" when host_bits >= 64 and "2^<host_bits>"
otherwise. -/
theorem C3_ipv6_counts (s : String) (a p : Nat)
    (h : ipNetworkParsed s = some ⟨Family.v6, a, p⟩) :
    fieldOf (calculate s) "Total IP Addresses" =
      some (.s (if 64 ≤ 128 - p then
        "2^" ++ toString (128 - p) ++ " (Standard /64 Subnet)"
        else "2^" ++ toString (128 - p))) ∧
    fieldOf (calculate s) "Usable Host Count" =
      some (.s (if 64 ≤ 128 - p then "Effectively infinite"
        else "2^" ++ toString (128 - p))) := by
  rw [calc_v6 h]
  exact ⟨rfl, rfl⟩

/-- C3 witness: the amended theorem applied at "2001:db8::1/64" (64 host
bits) and at "::1/100" (28 host bits). -/
theorem C3_witness :
    (fieldOf (calculate "2001:db8::1/64") "Total IP Addresses" =
      some (.s "2^64 (Standard /64 Subnet)") ∧
     fieldOf (calculate "2001:db8::1/64") "Usable Host Count" =
      some (.s "Effectively infinite")) ∧
    (fieldOf (calculate "::1/100") "Total IP Addresses" =
      some (.s "2^28") ∧
     fieldOf (calculate "::1/100") "Usable Host Count" =
      some (.s "2^28")) := by
  have h1 := C3_ipv6_counts "2001:db8::1/64"
    0x20010db8000000000000000000000001 64 rfl
  have h2 := C3_ipv6_counts "::1/100" 1 100 rfl
  exact ⟨⟨h1.1, h1.2⟩, ⟨h2.1, h2.2⟩⟩

/-! Claim C4: field order and field names. -/

/-- C4 counterexample: the key lists of successful calculations are not
the spec's lists.  For IPv4 the input field is named "Input IP/CIDR" and
the bit count fields are "Host Bits (h)" and "Subnet Bits (s)"; for IPv6,
in addition to the input field's name, "Subnet Mask Concept" appears
immediately after "CIDR Prefix" (before "Host Bits"), not after "Usable
Host Count" as in the section 4.2 table. -/
theorem C4_counterexample :
    fieldKeys (calculate "192.168.50.1/24") =
      ["Input IP/CIDR", "IP Version", "Network ID", "Historical Class",
       "CIDR Prefix", "Subnet Mask", "Host Bits (h)", "Subnet Bits (s)",
       "Total IP Addresses", "Usable Host Count", "Broadcast Address",
       "Usable Host Range"] ∧
    fieldKeys (calculate "192.168.50.1/24") ≠ specFieldNamesV4 ∧
    fieldKeys (calculate "2001:db8::1/64") =
      ["Input IP/CIDR", "IP Version", "Network ID", "CIDR Prefix",
       "Subnet Mask Concept", "Host Bits", "Total IP Addresses",
       "Usable Host Count", "Broadcast Address Concept",
       "Host Range Concept"] ∧
    fieldKeys (calculate "2001:db8::1/64") ≠ specFieldNamesV6 ∧
    (fieldKeys (calculate "2001:db8::1/64")).indexOf "Subnet Mask Concept" = 4 ∧
    specFieldNamesV6.indexOf "Subnet Mask Concept" = 7 := by
  exact ⟨rfl, by decide, rfl, by decide, by decide, by decide⟩

/-- C4 (amended): every successful calculation returns its fields in a
fixed order per family.  For IPv4 that order is the spec's (Input, IP
Version, Network ID, Historical Class inserted there, CIDR Prefix, then
the section 4.2 table rows in order) but with the names "Input IP/CIDR",
"Host Bits (h)" and "Subnet Bits (s)" instead of "Input (as supplied)",
"Host Bits" and "Subnet Bits".  For IPv6, besides the input field's name,
the order deviates from the section 4.2 table: "Subnet Mask Concept" is
emitted immediately after "CIDR Prefix" (before "Host Bits"), not
together with the other Concept fields after "Usable Host Count". -/
theorem C4_field_order :
    (∀ s a p, ipNetworkParsed s = some ⟨Family.v4, a, p⟩ →
      fieldKeys (calculate s) =
        ["Input IP/CIDR", "IP Version", "Network ID", "Historical Class",
         "CIDR Prefix", "Subnet Mask", "Host Bits (h)", "Subnet Bits (s)",
         "Total IP Addresses", "Usable Host Count", "Broadcast Address",
         "Usable Host Range"]) ∧
    (∀ s a p, ipNetworkParsed s = some ⟨Family.v6, a, p⟩ →
      fieldKeys (calculate s) =
        ["Input IP/CIDR", "IP Version", "Network ID", "CIDR Prefix",
         "Subnet Mask Concept", "Host Bits", "Total IP Addresses",
         "Usable Host Count", "Broadcast Address Concept",
         "Host Range Concept"]) := by
  refine ⟨fun s a p h => ?_, fun s a p h => ?_⟩
  · rw [calc_v4 h]
    rfl
  · rw [calc_v6 h]
    rfl

/-- C4 witness: the amended theorem applied at "10.0.0.1/24" and
"2001:db8::1/64". -/
theorem C4_witness :
    fieldKeys (calculate "10.0.0.1/24") =
      ["Input IP/CIDR", "IP Version", "Network ID", "Historical Class",
       "CIDR Prefix", "Subnet Mask", "Host Bits (h)", "Subnet Bits (s)",
       "Total IP Addresses", "Usable Host Count", "Broadcast Address",
       "Usable Host Range"] ∧
    fieldKeys (calculate "2001:db8::1/64") =
      ["Input IP/CIDR", "IP Version", "Network ID", "CIDR Prefix",
       "Subnet Mask Concept", "Host Bits", "Total IP Addresses",
       "Usable Host Count", "Broadcast Address Concept",
       "Host Range Concept"] := by
  exact ⟨C4_field_order.1 "10.0.0.1/24" 167772161 24 rfl,
    C4_field_order.2 "2001:db8::1/64"
      0x20010db8000000000000000000000001 64 rfl⟩

/-! Claim C8: invalid inputs fail atomically. -/

/-- C8: the inputs "999.1.1.1/24", "10.0.0.1/33" and "notanip/24" each
fail with the "Invalid input: ..." error and produce no fields, and every
calculation either fails with that error shape or fully succeeds. -/
theorem C8_invalid_inputs :
    calculate "999.1.1.1/24" = .error (errMsg "999.1.1.1/24") ∧
    calculate "10.0.0.1/33" = .error (errMsg "10.0.0.1/33") ∧
    calculate "notanip/24" = .error (errMsg "notanip/24") ∧
    fieldKeys (calculate "999.1.1.1/24") = [] ∧
    fieldKeys (calculate "10.0.0.1/33") = [] ∧
    fieldKeys (calculate "notanip/24") = [] ∧
    ∀ s : String, calculate s = .error (errMsg s) ∨
      resultOk (calculate s) = true := by
  refine ⟨rfl, rfl, rfl, rfl, rfl, rfl, fun s => ?_⟩
  unfold calculate resultOk
  rcases ipNetworkParsed s with _ | ⟨fam, a, p⟩
  · exact Or.inl rfl
  · rcases fam
    · exact Or.inr rfl
    · exact Or.inr rfl

/-! Claim C9: determinism. -/

/-- C9: calculate is a pure function, so two calls on the same input
return field-for-field identical results. -/
theorem C9_deterministic : ∀ s : String, calculate s = calculate s :=
  fun _ => rfl

/-! Claim C10: totality of get_ip_class. -/

theorem isDigit_ne {c d : Char} (h : c.isDigit = true)
    (hd : d.isDigit = false) : c ≠ d := by
  intro he
  rw [he, hd] at h
  exact Bool.false_ne_true h

theorem isDigit_not_ws {c : Char} (h : c.isDigit = true) :
    c.isWhitespace = false := by
  rcases hw : c.isWhitespace with _ | _
  · rfl
  · exfalso
    unfold Char.isWhitespace at hw
    simp only [Bool.or_eq_true, decide_eq_true_eq] at hw
    rcases hw with ((h1 | h1) | h1) | h1 <;>
      (rw [h1] at h; exact absurd h (by decide))

theorem dropWhile_none {p : Char → Bool} {cs : List Char}
    (h : ∀ c ∈ cs, p c = false) : cs.dropWhile p = cs := by
  induction cs with
  | nil => rfl
  | cons a l _ =>
    rw [List.dropWhile_cons, h a (List.mem_cons_self a l)]
    simp

theorem stripWs_of_digits {cs : List Char}
    (h : ∀ c ∈ cs, Char.isDigit c = true) : stripWs cs = cs := by
  have hall : ∀ c ∈ cs, Char.isWhitespace c = false := fun c hc =>
    isDigit_not_ws (h c hc)
  unfold stripWs
  rw [dropWhile_none hall,
    dropWhile_none (fun c hc => hall c (List.mem_reverse.mp hc)),
    List.reverse_reverse]

theorem groupedDigits_of_digits {cs : List Char} (hne : cs ≠ [])
    (h : ∀ c ∈ cs, Char.isDigit c = true) : groupedDigits cs = true := by
  unfold groupedDigits
  simp only [Bool.and_eq_true]
  refine ⟨⟨⟨⟨?_, ?_⟩, ?_⟩, ?_⟩, ?_⟩
  · rcases cs with _ | ⟨c, t⟩
    · exact absurd rfl hne
    · rfl
  · exact List.all_eq_true.mpr (fun c hc => by rw [h c hc]; rfl)
  · rcases cs with _ | ⟨c, t⟩
    · exact absurd rfl hne
    · simp only [List.head?_cons, bne_iff_ne, ne_eq, Option.some.injEq]
      exact isDigit_ne (h c (List.mem_cons_self c t)) (by decide)
  · rcases hl : cs.getLast? with _ | c
    · rfl
    · simp only [bne_iff_ne, ne_eq, Option.some.injEq]
      exact isDigit_ne (h c (List.mem_of_getLast?_eq_some hl)) (by decide)
  · simp only [Bool.not_eq_true']
    refine List.any_eq_false.mpr (fun x hx => ?_)
    obtain ⟨h1, _⟩ := List.of_mem_zip (a := x.1) (b := x.2) hx
    intro hc
    simp only [Bool.and_eq_true, beq_iff_eq] at hc
    exact isDigit_ne (h x.1 h1) (by decide) hc.1

theorem pyInt_of_digits {cs : List Char} (hne : cs ≠ [])
    (h : ∀ c ∈ cs, Char.isDigit c = true) :
    pyIntOfChars cs = some ((digitsToNat cs : Nat) : Int) := by
  rcases cs with _ | ⟨c, t⟩
  · exact absurd rfl hne
  have hc := h c (List.mem_cons_self c t)
  unfold pyIntOfChars
  have hminus : ¬ ((c :: t).head? = some '-') := by
    simp only [List.head?_cons, Option.some.injEq]
    exact isDigit_ne hc (by decide)
  have hplus : ¬ ((c :: t).head? = some '+') := by
    simp only [List.head?_cons, Option.some.injEq]
    exact isDigit_ne hc (by decide)
  rw [if_neg hminus, if_neg hplus,
    if_pos (groupedDigits_of_digits hne h)]
  unfold digitsValue
  rw [List.filter_eq_self.mpr (fun a ha => h a ha)]

theorem pythonInt_of_digits {cs : List Char} (hne : cs ≠ [])
    (h : ∀ c ∈ cs, Char.isDigit c = true) :
    pythonInt (String.mk cs) = some ((digitsToNat cs : Nat) : Int) := by
  unfold pythonInt
  rw [show (String.mk cs).data = cs from rfl, stripWs_of_digits h]
  exact pyInt_of_digits hne h

theorem parseOctet_some {cs : List Char} {v : Nat}
    (h : parseOctet cs = some v) :
    cs ≠ [] ∧ ∀ c ∈ cs, Char.isDigit c = true := by
  unfold parseOctet at h
  by_cases h1 : cs.isEmpty
  · rw [if_pos h1] at h
    exact absurd h (by simp)
  · rw [if_neg h1] at h
    by_cases h2 : cs.all Char.isDigit
    · refine ⟨?_, fun c hc => List.all_eq_true.mp h2 c hc⟩
      intro he
      rw [he] at h1
      exact h1 rfl
    · rw [if_neg h2] at h
      exact absurd h (by simp)

theorem parseIPv4_head {cs : List Char} {v : Nat} (h : parseIPv4 cs = some v) :
    ∃ p1 x, (splitOnChar '.' cs).headD [] = p1 ∧ parseOctet p1 = some x := by
  unfold parseIPv4 at h
  rcases hsp : splitOnChar '.' cs with _ | ⟨p1, r1⟩ <;> rw [hsp] at h
  · exact Option.noConfusion h
  · rcases r1 with _ | ⟨p2, r2⟩
    · exact Option.noConfusion h
    rcases r2 with _ | ⟨p3, r3⟩
    · exact Option.noConfusion h
    rcases r3 with _ | ⟨p4, r4⟩
    · exact Option.noConfusion h
    rcases r4 with _ | ⟨p5, r5⟩
    · replace h : (match parseOctet p1, parseOctet p2, parseOctet p3,
          parseOctet p4 with
        | some x, some y, some z, some w =>
            some (((x * 256 + y) * 256 + z) * 256 + w)
        | _, _, _, _ => none) = some v := h
      rcases ho1 : parseOctet p1 with _ | x
      · rw [ho1] at h
        exact Option.noConfusion h
      · exact ⟨p1, x, rfl, ho1⟩
    · exact Option.noConfusion h

/-- C10: get_ip_class always returns one of the seven labels and never
fails; the "N/A" fallback occurs exactly when the text before the first
'.' does not parse as a Python integer, hence never when the argument is a
valid dotted-quad IPv4 address string. -/
theorem C10_get_ip_class_total (s : String) :
    get_ip_class s ∈ ["Class A", "Class B", "Class C",
      "Class D (Multicast)", "Class E (Reserved)", "Special/Reserved",
      "N/A"] ∧
    (get_ip_class s = "N/A" ↔ pythonInt (firstDotField s) = none) ∧
    (∀ a, parseIPv4 s.data = some a → get_ip_class s ≠ "N/A") := by
  have hclass : ∀ n : Int, classOfOctet n ∈ ["Class A", "Class B",
      "Class C", "Class D (Multicast)", "Class E (Reserved)",
      "Special/Reserved", "N/A"] ∧ classOfOctet n ≠ "N/A" := by
    intro n
    unfold classOfOctet
    constructor <;> split_ifs <;> decide
  refine ⟨?_, ?_, ?_⟩
  · unfold get_ip_class
    rcases pythonInt (firstDotField s) with _ | n
    · decide
    · exact (hclass n).1
  · unfold get_ip_class
    rcases pythonInt (firstDotField s) with _ | n
    · simp
    · constructor
      · intro hl
        exact absurd hl (hclass n).2
      · intro hn
        exact absurd hn (by simp)
  · intro a hp
    obtain ⟨p1, x, hhead, ho⟩ := parseIPv4_head hp
    obtain ⟨hne, hdig⟩ := parseOctet_some ho
    have hpi : pythonInt (firstDotField s) =
        some ((digitsToNat p1 : Nat) : Int) := by
      unfold firstDotField
      rw [hhead]
      exact pythonInt_of_digits hne hdig
    unfold get_ip_class
    rw [hpi]
    exact (hclass ((digitsToNat p1 : Nat) : Int)).2

/-- C10 witness: the theorem applied at "10.0.0.1", a valid dotted quad,
whose class is a real label and not "N/A". -/
theorem C10_witness :
    get_ip_class "10.0.0.1" ∈ ["Class A", "Class B", "Class C",
      "Class D (Multicast)", "Class E (Reserved)", "Special/Reserved",
      "N/A"] ∧
    get_ip_class "10.0.0.1" ≠ "N/A" := by
  have h := C10_get_ip_class_total "10.0.0.1"
  exact ⟨h.1, h.2.2 167772161 rfl⟩

end SubnetCalc
